import Mathlib

/-!
Shallow embedding of the stop-server word-game backend (room session engine,
vote/scoring engine, player connection supervisor) and proofs about it.
JavaScript containers are modelled as follows: a `Map` / `Record` becomes an
association list updated in place (first matching key replaced, new keys
appended), a `Set` becomes a duplicate-free list in insertion order, and
JavaScript numbers used for timer delays become exact rationals. A `Map`
method invoked on a value that is in fact a plain object — the VoteManager's
`player.answers.get(category)` reads — is modelled as the TypeError it
throws, with `Except`; code that can throw this way returns `Except` and an
error value means the callback raised and the process died there.
-/

namespace StopServer

/-- Lookup in an association list, mirroring JavaScript `Map.get` /
property access on a `Record`. -/
def mapGet {α β : Type} [DecidableEq α] (m : List (α × β)) (k : α) : Option β :=
  match m with
  | [] => none
  | (k', v') :: rest => if k' = k then some v' else mapGet rest k

/-- Update of an association list, mirroring JavaScript `Map.set` /
property assignment on a `Record`: an existing key keeps its position,
a new key is appended at the end. -/
def mapSet {α β : Type} [DecidableEq α] (m : List (α × β)) (k : α) (v : β) :
    List (α × β) :=
  match m with
  | [] => [(k, v)]
  | (k', v') :: rest => if k' = k then (k, v) :: rest else (k', v') :: mapSet rest k v

/-- JavaScript `Set.add`: appends the element unless it is already present. -/
def jsSetInsert {α : Type} [DecidableEq α] (s : List α) (x : α) : List α :=
  if x ∈ s then s else s ++ [x]

/-- The distinct elements of a list in first-insertion order, mirroring
`new Set(list)` followed by spreading. -/
def jsSetOfList {α : Type} [DecidableEq α] (xs : List α) : List α :=
  xs.foldl jsSetInsert []

/-- JavaScript `Set.delete`. -/
def jsSetDelete {α : Type} [DecidableEq α] (s : List α) (x : α) : List α :=
  s.filter (fun y => decide (y ≠ x))

/-- One player connection (src/src/player.js). `answers` is the
category-to-answer record, `votes` the set of accepted answers, and
`inactivityDeadline` the absolute time at which the inactivity timeout
armed by the latest reset fires. -/
structure Player where
  name : String
  answers : List (String × String)
  votes : List String
  inactivityDeadline : Nat
deriving DecidableEq, Repr

/-- Player construction: empty answers and votes, inactivity timeout armed
30000 ms from now (Player constructor calling resetInactivityTimeout). -/
def mkPlayer (name : String) (now : Nat) : Player :=
  { name := name, answers := [], votes := [], inactivityDeadline := now + 30000 }

/-! ## Vote manager scoring (src VoteManager, calculateCategoryScores)

The VoteManager reads every answer as `player.answers.get(category)`, a
`Map` method — but player.js creates `answers` as a plain object
(`answers = {}`) and writes it by property assignment, so `get` is
undefined on it and every such read throws TypeError. The throwing reads
are embedded as `Except` errors; they fire on the first callback
invocation, so the scoring code only completes when the player list is
empty (no callback ever runs). -/

/-- One `player.answers.get(category)` read as the VoteManager performs it:
the field is a plain object, `get` is not a function on it, and the call
throws — whatever the object holds, which is why the arguments go unused. -/
def recordMapGet (_m : List (String × String)) (_category : String) :
    Except String (Option String) :=
  .error "TypeError: player.answers.get is not a function"

/-- The distinct-answer collection
`players.flatMap(p => p.answers.get(category) ?? [])`: the callback runs
once per player, left to right, and its read throws on the first player;
only an empty player list completes (with no answers). -/
def categoryAnswers (players : List Player) (category : String) :
    Except String (List String) :=
  match players with
  | [] => .ok []
  | p :: ps => do
      let a ← recordMapGet p.answers category
      let rest ← categoryAnswers ps category
      .ok ((match a with | some x => [x] | none => []) ++ rest)

/-- All votes cast by all players, in player order:
`players.flatMap(player => [...player.votes])`. -/
def allVotes : List Player → List String
  | [] => []
  | p :: ps => p.votes ++ allVotes ps

/-- VoteManager.calculateCategoryScores. In source order: collect the
distinct submitted answers (the read of the first player throws), build the
answer-to-count map (0 per distinct answer, incremented once per vote cast
by any player), then pair every player with the count of that player's own
answer — `answer ? answerScores.get(answer) ?? 0 : 0`, another throwing
read per player. With any player present the function throws at the first
collection read and computes no scores; with no players it returns the
empty map. -/
def calculateCategoryScores (players : List Player) (category : String) :
    Except String (List (Player × Nat)) := do
  let answers := jsSetOfList (← categoryAnswers players category)
  let answerScores :=
    (allVotes players).foldl
      (fun m vote => mapSet m vote ((mapGet m vote).getD 0 + 1))
      (answers.map (fun a => (a, (0 : Nat))))
  players.mapM (fun p => do
    let answer ← recordMapGet p.answers category
    Except.ok (p, match answer with
        | some a => if a = "" then 0 else (mapGet answerScores a).getD 0
        | none => 0))

/-! ## Messages (src player-messages schemas) -/

/-- Reason carried by a player-removed message. -/
inductive RemoveReason
  | roomClosed
  | left
  | timedOut
deriving DecidableEq, Repr

/-- Outbound messages sent to players (the toPlayerMessage union). -/
inductive Msg
  | playerJoined (name : String)
  | roomPlayers (names : List String)
  | roomCategories (categories : List String)
  | roundStarting
  | roundStarted (letter : String) (duration : Nat)
  | roundStopping (requester : Option String)
  | stopAvailable
  | categoryVoteStarted (category : String) (answers : List String) (duration : Nat)
  | votingEnded (scores : List (String × Nat))
  | playerRemoved (name : String) (reason : RemoveReason)
deriving DecidableEq, Repr

/-- One delivery step: the names of the players the message is sent to,
paired with the message. A Room broadcast records the names of the players
present at the moment it runs. -/
abbrev BMsg := List String × Msg

/-- Inbound messages accepted from a player connection (the
fromPlayerMessage union). -/
inductive FromPlayerMessage
  | heartbeat
  | startRound
  | stopRound
  | changeAnswer (category : String) (answer : String)
  | changeAnswerVote (answer : String) (accepted : Bool)
  | leaveRoom
deriving DecidableEq, Repr

/-- Room operation invoked by the player message dispatch (the cases of the
switch that call into the Room rather than mutate the player). -/
inductive RoomCommand
  | startRound
  | stopRound
  | leaveRoom
deriving DecidableEq, Repr

/-! ## Player message dispatch (src/src/player.js, the message listener) -/

/-- One step of the inbound message switch in the Player constructor.
Returns the updated player, the Room operation the case invokes (if any;
failures of those operations are logged and not fatal), and whether a
category-not-in-room warning is logged. Only the heartbeat case calls
resetInactivityTimeout; the change-answer case records the answer without
consulting the room state, and the change-answer-vote case adds to or
deletes from the vote set. -/
def dispatchMessage (roomCategories : List String) (p : Player) (now : Nat)
    (msg : FromPlayerMessage) : Player × Option RoomCommand × Bool :=
  match msg with
  | .startRound => (p, some .startRound, false)
  | .stopRound => (p, some .stopRound, false)
  | .changeAnswer category answer =>
      ({ p with answers := mapSet p.answers category answer }, none,
       !(roomCategories.contains category))
  | .changeAnswerVote answer accepted =>
      ({ p with votes :=
          if accepted then jsSetInsert p.votes answer else jsSetDelete p.votes answer },
       none, false)
  | .leaveRoom => (p, some .leaveRoom, false)
  | .heartbeat => ({ p with inactivityDeadline := now + 30000 }, none, false)

/-- The player resulting from processing a sequence of inbound messages. -/
def dispatchAll (roomCategories : List String) (p : Player) (now : Nat)
    (msgs : List FromPlayerMessage) : Player :=
  msgs.foldl (fun q m => (dispatchMessage roomCategories q now m).1) p

/-! ## Room (src/src/room.js) -/

/-- Lifecycle state of a room (the RoomState union). The round-answering
state carries the stopAvailable flag (absent, hence falsy, until the
stop-available timer fires) and whether the automatic stop timeout is armed.
The voting-state cleanup closure is modelled at the VoteManager level. -/
inductive RoomState
  | lobby
  | roundStarting
  | roundAnswering (stopAvailable : Bool) (stopTimeoutArmed : Bool)
  | roundAnsweringStopping
  | voting
  | leaderboard
  | closed
deriving DecidableEq, Repr

/-- A timer scheduled by a Room operation, by callback. -/
inductive TimerAction
  | roundStartDelay (letter : String) (duration : Nat)
  | autoStop
  | stopAvailableAt
  | voteTransition
deriving DecidableEq, Repr

/-- A pending timer: its callback and its delay in milliseconds. JavaScript
number arithmetic on delays is modelled with exact rationals. -/
structure Pending where
  action : TimerAction
  delay : ℚ
deriving DecidableEq, Repr

/-- A room. `noPlayerTimeout` records whether the no-player grace timer is
armed, and `registered` whether the room is held by the registry
(app.rooms); the registry removes the room only in Room.close. -/
structure Room where
  id : String
  password : String
  letters : List String
  categories : List String
  state : RoomState
  noPlayerTimeout : Bool
  players : List Player
  registered : Bool
deriving DecidableEq, Repr

/-- Names of the players currently in the room. -/
def Room.playerNames (room : Room) : List String :=
  room.players.map Player.name

/-- Room.close: clears the automatic stop timeout when round-answering and
the no-player timeout (the voting-state cleanup call is modelled at the
VoteManager level), broadcasts a room-closed removal notice for every
player, empties the player list, enters the closed state and removes the
room from the registry. -/
def Room.close (room : Room) : Room × List BMsg :=
  ({ room with
      players := []
      state := .closed
      noPlayerTimeout := false
      registered := false },
   room.players.map (fun p =>
     (room.playerNames, Msg.playerRemoved p.name .roomClosed)))

/-- The no-player grace timer fires: its callback is Room.close. -/
def Room.noPlayerTimeoutFires (room : Room) : Room × List BMsg :=
  room.close

/-- Room.addPlayer. Rejects on a duplicate name (the JavaScript throw is the
first statement, before any mutation). On success it clears any pending
no-player timeout, broadcasts the join notice (the new player is appended
only afterwards, so the notice reaches only the players already present),
appends the new player, and sends the new player the player-name list and
the category list. -/
def Room.addPlayer (room : Room) (name : String) (now : Nat) :
    Except String (Room × List BMsg) :=
  if room.players.any (fun q => q.name == name) then
    .error "Player with the same name already in the room"
  else
    let room1 : Room := { room with noPlayerTimeout := false }
    let newPlayer := mkPlayer name now
    let room2 : Room := { room1 with players := room1.players ++ [newPlayer] }
    .ok (room2,
      [(room1.playerNames, Msg.playerJoined name),
       ([name], Msg.roomPlayers room2.playerNames),
       ([name], Msg.roomCategories room2.categories)])

/-- Room.removePlayer. Rejects when the player is not a member; otherwise
broadcasts the removal notice (while the player is still in the list, so
the removed player receives it too), removes the player, and arms the
no-player grace timer when the list became empty (with no condition on the
room state). -/
def Room.removePlayer (room : Room) (p : Player) (reason : RemoveReason) :
    Except String (Room × List BMsg) :=
  if p ∈ room.players then
    let players' := room.players.filter (fun q => decide (q ≠ p))
    .ok ({ room with
            players := players'
            noPlayerTimeout := if players'.isEmpty then true else room.noPlayerTimeout },
         [(room.playerNames, Msg.playerRemoved p.name reason)])
  else .error "Player not in the room"

/-- The inactivity timeout armed by resetInactivityTimeout fires: its
callback is removePlayer with reason timed-out. -/
def Room.inactivityTimeoutFires (room : Room) (p : Player) :
    Except String (Room × List BMsg) :=
  room.removePlayer p .timedOut

/-- Room.startRound. Rejects unless the state is lobby or leaderboard;
otherwise enters round-starting, broadcasts the starting notice, picks the
letter at the random index `k` (the JavaScript throw on a missing letter is
modelled as the error branch; the claims only concern the rejection and
success paths), computes duration = category count times 10000 ms, and
schedules the 5000 ms round-start timer. -/
def Room.startRound (room : Room) (k : Nat) :
    Except String (Room × List BMsg × List Pending) :=
  if room.state = .lobby ∨ room.state = .leaderboard then
    let room' : Room := { room with state := .roundStarting }
    match room.letters.get? k with
    | none => .error "No letters available to start a round"
    | some letter =>
        let duration := room.categories.length * 10000
        .ok (room', [(room'.playerNames, Msg.roundStarting)],
          [⟨.roundStartDelay letter duration, 5000⟩])
  else .error "Round already in progress"

/-- The round-start timer fires: enters round-answering with the automatic
stop timeout armed for the full duration, broadcasts the round-started
message, and schedules the stop-available timer at duration / 3. -/
def Room.roundStartDelayFires (room : Room) (letter : String) (duration : Nat) :
    Room × List BMsg × List Pending :=
  ({ room with state := .roundAnswering false true },
   [(room.playerNames, Msg.roundStarted letter duration)],
   [⟨.autoStop, (duration : ℚ)⟩, ⟨.stopAvailableAt, (duration : ℚ) / 3⟩])

/-- The stop-available timer fires: throws unless the room is still
round-answering; otherwise sets the stopAvailable flag and broadcasts the
stop-available notice. -/
def Room.stopAvailableFires (room : Room) : Except String (Room × List BMsg) :=
  match room.state with
  | .roundAnswering _ armed =>
      .ok ({ room with state := .roundAnswering true armed },
           [(room.playerNames, Msg.stopAvailable)])
  | _ => .error "Unexpected round state"

/-- Room.stopRound. Rejects unless the state is round-answering, and when a
requester is supplied also unless stopAvailable is set. Otherwise clears the
automatic stop timeout, enters round-answering-stopping, broadcasts the
stopping notice with the requester name, and schedules the 3000 ms
transition into the voting phase. -/
def Room.stopRound (room : Room) (requester : Option Player) :
    Except String (Room × List BMsg × List Pending) :=
  match room.state with
  | .roundAnswering stopAvail _armed =>
      if requester.isSome && !stopAvail then
        .error "Requesting a stop is not available yet"
      else
        .ok ({ room with state := .roundAnsweringStopping },
             [(room.playerNames, Msg.roundStopping (requester.map Player.name))],
             [⟨.voteTransition, 3000⟩])
  | _ => .error "Can't stop a round that's not in answering state"

/-- The voting-ended listener installed by Room.stopRound: converts the
player-keyed score map into a name-keyed record (iteration order, later
entries overwriting), enters the leaderboard state, and broadcasts the
voting-ended message with those scores. It touches neither the player list,
nor the timers, nor the registry. -/
def Room.votingEndedListener (room : Room) (scores : List (Player × Nat)) :
    Room × List BMsg :=
  let nameScores := scores.foldl (fun acc pv => mapSet acc pv.1.name pv.2) []
  ({ room with state := .leaderboard },
   [(room.playerNames, Msg.votingEnded nameScores)])

/-! ## VoteManager cadence (src VoteManager start and stop)

Timer scheduling is modelled with an explicit set of active interval ids:
`setInterval` registers a fresh id, `clearInterval` removes one, and a
cadence tick can run only while its id is in the set. -/

/-- The VoteManager object: the player and category lists handed over by the
room, and the categoryIntervalField member (the private categoryInterval
field, which no code path ever assigns an interval to). -/
structure VoteManager where
  players : List Player
  categories : List String
  categoryIntervalField : Option Nat
deriving DecidableEq, Repr

/-- The VoteManager constructor: stores players and categories; the interval
field starts out undefined. -/
def VoteManager.new (players : List Player) (categories : List String) :
    VoteManager :=
  { players := players, categories := categories, categoryIntervalField := none }

/-- The state captured by the closure that VoteManager.start passes to
setInterval: the id of the interval it registered (held in the local
variable `interval`), the category cursor, and the running score map. -/
structure VMRun where
  intervalId : Nat
  categoryIndex : Nat
  scores : List (Player × Nat)
deriving DecidableEq, Repr

/-- Observable effects of a cadence tick: each category-vote-started send of
beginVotingFor (one per player, none when no player is present) and the
one-shot voting-ended completion signal dispatched on the event target. -/
inductive VMEvent
  | categoryVoteSent (player : String) (category : String) (answers : List String)
      (duration : Nat)
  | votingEnded (scores : List (Player × Nat))
deriving DecidableEq, Repr

/-- The Player.send side effect of a category-vote-started message: the
receiving player's vote set is replaced by exactly the announced answer set
(src/src/player.js, the send switch). -/
def Player.receiveCategoryVote (p : Player) (answers : List String) : Player :=
  { p with votes := jsSetOfList answers }

/-- VoteManager.#beginVotingFor: collects the distinct submitted answers for
the category — the first `answers.get` read throws when a player exists —
then sends every player the category-vote-started message, each delivery
replacing that player's vote set with the announced answers. Returns the
updated players and the sends performed. -/
def beginVotingFor (players : List Player) (category : String) (duration : Nat) :
    Except String (List Player × List VMEvent) := do
  let answers := jsSetOfList (← categoryAnswers players category)
  Except.ok
    (players.map (fun pl => pl.receiveCategoryVote answers),
     players.map (fun pl => VMEvent.categoryVoteSent pl.name category answers duration))

/-- VoteManager.start: registers the repeating cadence interval under a
fresh id and initialises the cursor to 0 and the score map to 0 for every
player. The interval handle is kept only in the local variable of start;
the categoryIntervalField member is not assigned. -/
def VoteManager.start (vm : VoteManager) (freshId : Nat) (active : List Nat) :
    VoteManager × List Nat × VMRun :=
  (vm, freshId :: active,
   { intervalId := freshId
     categoryIndex := 0
     scores := vm.players.map (fun p => (p, 0)) })

/-- VoteManager.stop: calls clearInterval on the interval held in
categoryIntervalField (when defined) and resets the field. -/
def VoteManager.stop (vm : VoteManager) (active : List Nat) :
    VoteManager × List Nat :=
  match vm.categoryIntervalField with
  | some i =>
      ({ vm with categoryIntervalField := none },
       active.filter (fun j => decide (j ≠ i)))
  | none => ({ vm with categoryIntervalField := none }, active)

/-- Accumulation of a category score map into the running totals:
`scores.set(player, (scores.get(player) ?? 0) + score)` per entry. -/
def addScores (total incoming : List (Player × Nat)) : List (Player × Nat) :=
  incoming.foldl (fun t pv => mapSet t pv.1 ((mapGet t pv.1).getD 0 + pv.2)) total

/-- One tick of the cadence callback registered by VoteManager.start. It can
run only while its interval id is still active (`none` means no tick can
fire at all). A tick that runs adds the previous category's scores into the
totals when the cursor is positive, then either clears its own interval
(through the local variable) and dispatches the completion signal once the
cursor has passed the last category, or begins the vote on the category at
the cursor (duration 7500 ms) and advances the cursor. An `Except` error is
a tick that threw: the uncaught TypeError of the `answers.get` reads kills
the process, so no event of that tick (nor any later one) is emitted. Since
every read throws when a player exists, the score-accumulation and
completion branches only complete with an empty player list — which also
keeps the structural Player keys of the score map faithful to the
identity-keyed JavaScript Map, as no key is ever mutated on a path that
reaches them. The two missing-category throws in the source are unreachable
(the cursor never exceeds the category count) and are modelled as identity
steps. -/
def VoteManager.tick (vm : VoteManager) (active : List Nat) (run : VMRun) :
    Option (Except String (VoteManager × List Nat × VMRun × List VMEvent)) :=
  if run.intervalId ∈ active then
    some (do
      let scores ←
        if 0 < run.categoryIndex then
          match vm.categories.get? (run.categoryIndex - 1) with
          | some prev => do
              let categoryScores ← calculateCategoryScores vm.players prev
              Except.ok (addScores run.scores categoryScores)
          | none => Except.ok run.scores
        else Except.ok run.scores
      if vm.categories.length ≤ run.categoryIndex then
        Except.ok (vm, active.filter (fun j => decide (j ≠ run.intervalId)),
          { run with scores := scores }, [VMEvent.votingEnded scores])
      else
        match vm.categories.get? run.categoryIndex with
        | some category => do
            let started ← beginVotingFor vm.players category 7500
            Except.ok ({ vm with players := started.1 }, active,
              { run with categoryIndex := run.categoryIndex + 1, scores := scores },
              started.2)
        | none => Except.ok (vm, active, run, []))
  else none

/-! ## Concrete instances used in the closed theorems -/

/-- Player of the worked scoring example who answered "cat" and accepted
"cat". -/
def exP1 : Player :=
  { name := "P1", answers := [("Animal", "cat")], votes := ["cat"], inactivityDeadline := 0 }

/-- Player of the worked scoring example who answered "dog" and accepted
"cat". -/
def exP2 : Player :=
  { name := "P2", answers := [("Animal", "dog")], votes := ["cat"], inactivityDeadline := 0 }

/-- Player of the worked scoring example who answered "cat" and cast no
vote. -/
def exP3 : Player :=
  { name := "P3", answers := [("Animal", "cat")], votes := [], inactivityDeadline := 0 }

/-- A freshly joined player named alice. -/
def alice : Player := mkPlayer "alice" 0

/-- A freshly joined player named bob. -/
def bob : Player := mkPlayer "bob" 0

/-- A lobby room with one player. -/
def sampleRoom : Room :=
  { id := "r1"
    password := "pw"
    letters := ["A", "B"]
    categories := ["Animal", "Food"]
    state := .lobby
    noPlayerTimeout := false
    players := [alice]
    registered := true }

/-- The sample room after bob joined. -/
def sampleRoomAfterBob : Room :=
  { sampleRoom with players := [alice, mkPlayer "bob" 0] }

/-- A room with two players. -/
def roomTwo : Room := { sampleRoom with players := [alice, bob] }

/-- The result of removing bob from the two-player room. -/
def rmResult : Room × List BMsg :=
  ({ roomTwo with players := [alice] },
   [(["alice", "bob"], Msg.playerRemoved "bob" RemoveReason.left)])

/-- A room in the middle of the answering phase with a single player. -/
def midRoundRoom : Room :=
  { sampleRoom with state := .roundAnswering true true }

/-- A room in the answering phase before the stop-available timer fired. -/
def answeringRoom : Room :=
  { sampleRoom with state := .roundAnswering false true }

/-- A room in the voting phase. -/
def votingRoom : Room := { sampleRoom with state := .voting }

/-- The single player of the vote-manager scenario. -/
def vmP : Player :=
  { name := "P", answers := [("Cat", "x")], votes := ["x"], inactivityDeadline := 0 }

/-- A vote manager over one player and one category. -/
def vmBug : VoteManager := VoteManager.new [vmP] ["Cat"]

/-- A vote manager over one category whose player list has emptied — the
room's players field is rebound to a fresh array on every removal, so the
array the timeout callback hands to the constructor is empty when the last
player left during the stopping window. -/
def vmEmpty : VoteManager := VoteManager.new [] ["Cat"]

/-! ## Helper lemmas about the container models -/

theorem mapGet_mapSet_self {α β : Type} [DecidableEq α]
    (m : List (α × β)) (k : α) (v : β) : mapGet (mapSet m k v) k = some v := by
  induction m with
  | nil => simp [mapGet, mapSet]
  | cons hd tl ih =>
    obtain ⟨k', v'⟩ := hd
    by_cases h : k' = k
    · simp [mapGet, mapSet, h]
    · simp [mapGet, mapSet, h, ih]

theorem mapGet_mapSet_ne {α β : Type} [DecidableEq α]
    (m : List (α × β)) (k k' : α) (v : β) (h : k' ≠ k) :
    mapGet (mapSet m k v) k' = mapGet m k' := by
  have h' : ¬ k = k' := fun hh => h hh.symm
  induction m with
  | nil => simp [mapGet, mapSet, h']
  | cons hd tl ih =>
    obtain ⟨k0, v0⟩ := hd
    by_cases h0 : k0 = k
    · subst h0
      simp [mapGet, mapSet, h']
    · by_cases h1 : k0 = k'
      · simp [mapGet, mapSet, h0, h1, h]
      · simp [mapGet, mapSet, h0, h1, ih]

/-! ## Claim theorems -/

/-- C1: evaluation of the code at the failing input. At the worked example —
answers cat (P1), dog (P2), cat (P3) for the category and "cat" accepted by
P1 and P2 — the scoring engine computes no scores at all: its first
`player.answers.get(category)` read throws TypeError, because player.js
stores `answers` as a plain object (written by property assignment) while
VoteManager reads it as a Map. The claimed scores P1 = 2, P3 = 2, P2 = 0 are
never produced. Only an empty player list, whose reads never run, completes
(with an empty score map). -/
theorem claim_C1_scoring_crash :
    calculateCategoryScores [exP1, exP2, exP3] "Animal" =
      .error "TypeError: player.answers.get is not a function"
    ∧ calculateCategoryScores [] "Animal" = .ok [] := by
  exact ⟨rfl, rfl⟩

/-- C2 (amended): when the vote cycle controller signals completion, the
room converts the player-keyed score map to a name-keyed record, broadcasts
the voting-ended message carrying those scores to all players, and enters
the leaderboard state; it does not tear the room down — the player list, the
no-player timer and the registry registration are untouched and no removal
is broadcast. -/
theorem claim_C2_votingEnded (room : Room) (scores : List (Player × Nat)) :
    (Room.votingEndedListener room scores).1.state = .leaderboard
    ∧ (Room.votingEndedListener room scores).2 =
        [(room.playerNames,
          Msg.votingEnded (scores.foldl (fun acc pv => mapSet acc pv.1.name pv.2) []))]
    ∧ (Room.votingEndedListener room scores).1.state ≠ .closed
    ∧ (Room.votingEndedListener room scores).1.registered = room.registered
    ∧ (Room.votingEndedListener room scores).1.noPlayerTimeout = room.noPlayerTimeout
    ∧ (Room.votingEndedListener room scores).1.players = room.players := by
  refine ⟨rfl, rfl, ?_, rfl, rfl, rfl⟩
  simp [Room.votingEndedListener]

/-- Counterexample to C2 as stated: on completion over the voting room the
state becomes leaderboard (not closed), the room stays registered, and the
only message sent is the voting-ended broadcast — no removal notice, no
deregistration. -/
theorem claim_C2_counterexample :
    Room.votingEndedListener votingRoom [(alice, 3)] =
      ({ votingRoom with state := .leaderboard },
       [(["alice"], Msg.votingEnded [("alice", 3)])])
    ∧ (Room.votingEndedListener votingRoom [(alice, 3)]).1.state ≠ .closed
    ∧ (Room.votingEndedListener votingRoom [(alice, 3)]).1.registered = true := by
  decide

/-- C4: evaluation of the code at the failing inputs. start registers
interval 0 while leaving categoryIntervalField undefined, so stop (called
once or twice — a no-op, hence idempotent) clears nothing and the interval
stays active; the next cadence tick therefore still runs after stop,
contradicting the claim that stop cancels the cadence. With the single
player present, the tick that runs throws TypeError in beginVotingFor and
kills the process before any send. With the player list emptied (the last
player left during the stopping window, so no read ever runs), the ticks
complete: the first begins the category vote and the second dispatches the
voting-ended completion signal even though stop was called. -/
theorem claim_C4_stop_ineffective :
    VoteManager.start vmBug 0 [] = (vmBug, [0], ⟨0, 0, [(vmP, 0)]⟩)
    ∧ vmBug.categoryIntervalField = none
    ∧ (VoteManager.stop vmBug [0]).2 = [0]
    ∧ (VoteManager.stop (VoteManager.stop vmBug [0]).1 [0]).2 = [0]
    ∧ VoteManager.tick (VoteManager.stop vmBug [0]).1 [0] ⟨0, 0, [(vmP, 0)]⟩ =
        some (.error "TypeError: player.answers.get is not a function")
    ∧ VoteManager.start vmEmpty 0 [] = (vmEmpty, [0], ⟨0, 0, []⟩)
    ∧ (VoteManager.stop vmEmpty [0]).2 = [0]
    ∧ VoteManager.tick (VoteManager.stop vmEmpty [0]).1 [0] ⟨0, 0, []⟩ =
        some (.ok (vmEmpty, [0], ⟨0, 1, []⟩, []))
    ∧ VoteManager.tick (VoteManager.stop vmEmpty [0]).1 [0] ⟨0, 1, []⟩ =
        some (.ok (vmEmpty, [], ⟨0, 1, []⟩, [VMEvent.votingEnded []])) := by
  exact ⟨rfl, rfl, rfl, rfl, rfl, rfl, rfl, rfl, rfl⟩

/-- C3 (amended): for every started round of duration D, the timer that
marks player-initiated stopping as allowed (and broadcasts the
stop-available notice) is scheduled at D / 3 — not D / 2; a player-initiated
stopRound before it fires always fails, after it fires the first
player-initiated stopRound succeeds (entering the stopping state), and a
second stop request then fails. -/
theorem claim_C3_stop_window :
    (∀ (room : Room) (letter : String) (duration : Nat),
      (Room.roundStartDelayFires room letter duration).2.2 =
        [⟨.autoStop, (duration : ℚ)⟩, ⟨.stopAvailableAt, (duration : ℚ) / 3⟩])
    ∧ (∀ (room : Room) (armed : Bool) (p : Player),
        room.state = .roundAnswering false armed →
        Room.stopRound room (some p) = .error "Requesting a stop is not available yet")
    ∧ (∀ (room : Room) (sa armed : Bool) (p : Player),
        room.state = .roundAnswering sa armed →
        Room.stopAvailableFires room =
          .ok ({ room with state := .roundAnswering true armed },
               [(room.playerNames, Msg.stopAvailable)])
        ∧ Room.stopRound { room with state := .roundAnswering true armed } (some p) =
            .ok ({ room with state := .roundAnsweringStopping },
                 [(room.playerNames, Msg.roundStopping (some p.name))],
                 [⟨.voteTransition, 3000⟩]))
    ∧ (∀ (room : Room) (p : Player),
        room.state = .roundAnsweringStopping →
        Room.stopRound room (some p) =
          .error "Can't stop a round that's not in answering state") := by
  refine ⟨fun room letter duration => rfl, ?_, ?_, ?_⟩
  · intro room armed p h
    obtain ⟨i, pw, ls, cs, st, npt, pls, reg⟩ := room
    cases h
    rfl
  · intro room sa armed p h
    obtain ⟨i, pw, ls, cs, st, npt, pls, reg⟩ := room
    cases h
    exact ⟨rfl, rfl⟩
  · intro room p h
    obtain ⟨i, pw, ls, cs, st, npt, pls, reg⟩ := room
    cases h
    rfl

/-- Witness for C3: in the answering room before the stop-available timer
fired, a player-initiated stop fails; and firing the stop-available timer
then stopping succeeds. -/
theorem claim_C3_stop_window_witness :
    Room.stopRound answeringRoom (some alice) =
      .error "Requesting a stop is not available yet"
    ∧ (Room.stopAvailableFires answeringRoom =
        .ok ({ answeringRoom with state := .roundAnswering true true },
             [(answeringRoom.playerNames, Msg.stopAvailable)])
       ∧ Room.stopRound { answeringRoom with state := .roundAnswering true true }
           (some alice) =
          .ok ({ answeringRoom with state := .roundAnsweringStopping },
               [(answeringRoom.playerNames, Msg.roundStopping (some alice.name))],
               [⟨.voteTransition, 3000⟩])) :=
  ⟨claim_C3_stop_window.2.1 answeringRoom true alice rfl,
   claim_C3_stop_window.2.2.1 answeringRoom false true alice rfl⟩

/-- Counterexample to C3 as stated: for a round of duration 30000 ms the
stop-available timer is scheduled with delay 10000 ms, which is not
30000 / 2 = 15000. -/
theorem claim_C3_counterexample :
    (Room.roundStartDelayFires sampleRoom "B" 30000).2.2 =
      [⟨.autoStop, 30000⟩, ⟨.stopAvailableAt, 10000⟩]
    ∧ (10000 : ℚ) ≠ 30000 / 2 := by
  constructor
  · norm_num [Room.roundStartDelayFires]
  · norm_num

/-- C5 (amended): removePlayer rejects when the player is not a member; on
success it broadcasts the removal notice with the given reason to all
players including the removed one (the notice is built before the removal),
then removes the player; and — starting from a room whose grace timer is not
armed — it arms the no-player grace timer if and only if the room is left
with no players, regardless of whether a round or voting cycle is active.
The grace timer's callback closes the room: terminal closed state and
deregistration. -/
theorem claim_C5_removePlayer :
    (∀ (room : Room) (p : Player) (reason : RemoveReason), p ∉ room.players →
      Room.removePlayer room p reason = .error "Player not in the room")
    ∧ (∀ (room : Room) (p : Player) (reason : RemoveReason) (r' : Room × List BMsg),
        p ∈ room.players → Room.removePlayer room p reason = .ok r' →
        r'.2 = [(room.playerNames, Msg.playerRemoved p.name reason)]
        ∧ p.name ∈ room.playerNames
        ∧ r'.1.players = room.players.filter (fun q => decide (q ≠ p))
        ∧ (room.noPlayerTimeout = false →
            (r'.1.noPlayerTimeout = true ↔ r'.1.players = [])))
    ∧ (∀ room : Room,
        (Room.noPlayerTimeoutFires room).1.state = .closed
        ∧ (Room.noPlayerTimeoutFires room).1.registered = false
        ∧ (Room.noPlayerTimeoutFires room).1.noPlayerTimeout = false) := by
  refine ⟨?_, ?_, fun room => ⟨rfl, rfl, rfl⟩⟩
  · intro room p reason h
    simp [Room.removePlayer, h]
  · intro room p reason r' hmem hok
    simp only [Room.removePlayer, hmem, if_true, Except.ok.injEq] at hok
    subst hok
    refine ⟨rfl, List.mem_map_of_mem Player.name hmem, rfl, ?_⟩
    intro hnpt
    show (if (room.players.filter (fun q => decide (q ≠ p))).isEmpty then true
          else room.noPlayerTimeout) = true
        ↔ room.players.filter (fun q => decide (q ≠ p)) = []
    have hb : ∀ b : Bool, (if b then true else false) = b := by decide
    rw [hnpt, hb]
    exact List.isEmpty_iff

/-- Witness for C5: removing bob from the two-player room broadcasts the
notice to both alice and bob and leaves the room non-empty, so the grace
timer stays unarmed. -/
theorem claim_C5_removePlayer_witness :
    Room.removePlayer roomTwo bob .left = .ok rmResult
    ∧ (rmResult.2 = [(roomTwo.playerNames, Msg.playerRemoved bob.name .left)]
       ∧ bob.name ∈ roomTwo.playerNames
       ∧ rmResult.1.players = roomTwo.players.filter (fun q => decide (q ≠ bob))
       ∧ (roomTwo.noPlayerTimeout = false →
           (rmResult.1.noPlayerTimeout = true ↔ rmResult.1.players = []))) :=
  ⟨rfl, claim_C5_removePlayer.2.1 roomTwo bob .left rmResult (by decide) rfl⟩

/-- Counterexample to C5 as stated: the room is in the middle of the
answering phase (mid-round-cycle) with a single player, yet removing that
player arms the no-player grace timer — the implementation never checks the
room state. -/
theorem claim_C5_counterexample :
    midRoundRoom.state = .roundAnswering true true
    ∧ Room.removePlayer midRoundRoom alice .left =
        .ok ({ midRoundRoom with players := [], noPlayerTimeout := true },
             [(["alice"], Msg.playerRemoved "alice" .left)]) := by
  exact ⟨rfl, rfl⟩

/-- C6 (amended): every successful addPlayer call cancels any pending
no-player grace timer, broadcasts the join notice to the players already in
the room (the new player is appended only afterwards and does not receive
it), appends the newly created Player, and then sends the new player the
current player-name list followed by the category list. -/
theorem claim_C6_addPlayer (room : Room) (name : String) (now : Nat)
    (h : ∀ q ∈ room.players, q.name ≠ name) :
    Room.addPlayer room name now =
      .ok ({ room with
              noPlayerTimeout := false
              players := room.players ++ [mkPlayer name now] },
        [(room.playerNames, Msg.playerJoined name),
         ([name], Msg.roomPlayers (room.playerNames ++ [name])),
         ([name], Msg.roomCategories room.categories)]) := by
  have hany : room.players.any (fun q => q.name == name) = false := by
    rw [List.any_eq_false]
    intro q hq
    simpa using h q hq
  rw [Room.addPlayer, hany]
  simp [Room.playerNames, mkPlayer]

/-- Witness for C6: bob joining the one-player sample room. -/
theorem claim_C6_addPlayer_witness :
    Room.addPlayer sampleRoom "bob" 0 =
      .ok ({ sampleRoom with
              noPlayerTimeout := false
              players := sampleRoom.players ++ [mkPlayer "bob" 0] },
        [(sampleRoom.playerNames, Msg.playerJoined "bob"),
         (["bob"], Msg.roomPlayers (sampleRoom.playerNames ++ ["bob"])),
         (["bob"], Msg.roomCategories sampleRoom.categories)]) :=
  claim_C6_addPlayer sampleRoom "bob" 0 (by decide)

/-- Counterexample to C6 as stated: when bob joins the sample room the join
notice is the first message sent and its recipient list is ["alice"] — it
is delivered before bob is appended and bob is not among its recipients. -/
theorem claim_C6_counterexample :
    Room.addPlayer sampleRoom "bob" 0 =
      .ok (sampleRoomAfterBob,
        [(["alice"], Msg.playerJoined "bob"),
         (["bob"], Msg.roomPlayers ["alice", "bob"]),
         (["bob"], Msg.roomCategories ["Animal", "Food"])])
    ∧ "bob" ∉ ["alice"] := by
  exact ⟨rfl, by decide⟩

/-- C7: joining with a name already present always fails with the
duplicate-name error (the throw is the first statement of addPlayer, before
any mutation or send, so membership, messages and timers are untouched), and
name uniqueness is preserved: a successful addPlayer keeps the name list
duplicate-free, as does removePlayer. -/
theorem claim_C7_duplicate_name :
    (∀ (room : Room) (name : String) (now : Nat),
      name ∈ room.playerNames →
      Room.addPlayer room name now = .error "Player with the same name already in the room")
    ∧ (∀ (room : Room) (name : String) (now : Nat) (r' : Room × List BMsg),
        Room.addPlayer room name now = .ok r' →
        room.playerNames.Nodup → r'.1.playerNames.Nodup)
    ∧ (∀ (room : Room) (p : Player) (reason : RemoveReason) (r' : Room × List BMsg),
        Room.removePlayer room p reason = .ok r' →
        room.playerNames.Nodup → r'.1.playerNames.Nodup) := by
  refine ⟨?_, ?_, ?_⟩
  · intro room name now h
    have hany : room.players.any (fun q => q.name == name) = true := by
      rw [List.any_eq_true]
      obtain ⟨q, hq, hname⟩ := List.mem_map.mp h
      exact ⟨q, hq, by simp [hname]⟩
    simp [Room.addPlayer, hany]
  · intro room name now r' hok hnodup
    by_cases hany : room.players.any (fun q => q.name == name) = true
    · simp [Room.addPlayer, hany] at hok
    · rw [Bool.not_eq_true] at hany
      simp only [Room.addPlayer, hany, Bool.false_eq_true, if_false,
        Except.ok.injEq] at hok
      subst hok
      have hnot : name ∉ room.playerNames := by
        intro hmem
        obtain ⟨q, hq, hname⟩ := List.mem_map.mp hmem
        have := List.any_eq_false.mp hany q hq
        simp [hname] at this
      simp only [Room.playerNames, List.map_append, List.map_cons, List.map_nil]
      refine List.nodup_append.mpr ⟨hnodup, List.nodup_singleton _, ?_⟩
      intro a ha hb
      simp only [mkPlayer, List.mem_singleton] at hb
      subst hb
      exact hnot ha
  · intro room p reason r' hok hnodup
    by_cases hmem : p ∈ room.players
    · simp only [Room.removePlayer, hmem, if_true, Except.ok.injEq] at hok
      subst hok
      simp only [Room.playerNames]
      exact ((room.players.filter_sublist.map Player.name)).nodup hnodup
    · simp [Room.removePlayer, hmem] at hok

/-- Witness for C7: adding a second alice to the sample room fails, and the
successful additions and removals of the other witnesses keep names
unique. -/
theorem claim_C7_duplicate_name_witness :
    Room.addPlayer sampleRoom "alice" 0 =
      .error "Player with the same name already in the room" :=
  claim_C7_duplicate_name.1 sampleRoom "alice" 0 (by decide)

/-- C8: startRound rejects unless the room state is lobby or the post-voting
leaderboard state — hence a second startRound without an intervening
stop/voting-completion fails, since a successful call leaves the state at
round-starting — and on success it broadcasts the starting notice, picks a
letter that is a member of the room's letter set, schedules the 5000 ms
pre-round timer, and that timer's firing broadcasts round-started with the
chosen letter and duration = category count × 10000 ms. -/
theorem claim_C8_startRound :
    (∀ (room : Room) (k : Nat),
      room.state ≠ .lobby → room.state ≠ .leaderboard →
      Room.startRound room k = .error "Round already in progress")
    ∧ (∀ (room : Room) (k : Nat) (r' : Room × List BMsg × List Pending),
        Room.startRound room k = .ok r' →
        r'.1.state = .roundStarting
        ∧ ∀ k', Room.startRound r'.1 k' = .error "Round already in progress")
    ∧ (∀ (room : Room) (k : Nat) (letter : String),
        (room.state = .lobby ∨ room.state = .leaderboard) →
        room.letters.get? k = some letter →
        Room.startRound room k =
          .ok ({ room with state := .roundStarting },
               [(room.playerNames, Msg.roundStarting)],
               [⟨.roundStartDelay letter (room.categories.length * 10000), 5000⟩])
        ∧ letter ∈ room.letters
        ∧ (Room.roundStartDelayFires { room with state := .roundStarting } letter
             (room.categories.length * 10000)).2.1 =
            [(room.playerNames, Msg.roundStarted letter
               (room.categories.length * 10000))]) := by
  refine ⟨?_, ?_, ?_⟩
  · intro room k h1 h2
    have hst : ¬(room.state = .lobby ∨ room.state = .leaderboard) := by tauto
    simp [Room.startRound, hst]
  · intro room k r' hok
    by_cases hst : room.state = .lobby ∨ room.state = .leaderboard
    · simp only [Room.startRound, if_pos hst] at hok
      cases hget : room.letters.get? k with
      | none => rw [hget] at hok; exact absurd hok (by simp)
      | some letter =>
        rw [hget] at hok
        simp only [Except.ok.injEq] at hok
        subst hok
        exact ⟨rfl, fun k' => by simp [Room.startRound]⟩
    · simp only [Room.startRound, if_neg hst] at hok
      exact absurd hok (by simp)
  · intro room k letter hst hget
    refine ⟨?_, List.get?_mem hget, rfl⟩
    simp only [Room.startRound, if_pos hst, hget]
    rfl

/-- Witness for C8: starting a round in the lobby sample room with random
index 1 picks letter "B" and schedules the 20000 ms round. -/
theorem claim_C8_startRound_witness :
    Room.startRound sampleRoom 1 =
      .ok ({ sampleRoom with state := .roundStarting },
           [(sampleRoom.playerNames, Msg.roundStarting)],
           [⟨.roundStartDelay "B" (sampleRoom.categories.length * 10000), 5000⟩])
    ∧ "B" ∈ sampleRoom.letters
    ∧ (Room.roundStartDelayFires { sampleRoom with state := .roundStarting } "B"
         (sampleRoom.categories.length * 10000)).2.1 =
        [(sampleRoom.playerNames, Msg.roundStarted "B"
           (sampleRoom.categories.length * 10000))] :=
  claim_C8_startRound.2.2 sampleRoom 1 "B" (Or.inl rfl) rfl

/-- C9: processing a valid change-answer message never fails — it invokes no
Room operation that could reject, and the update is total — and always
records the answer under the named category in the player's mapping,
overwriting any prior value and leaving other categories unchanged; the
update does not depend on the room's category list (a warning is logged
exactly when the category is not in it) and the dispatch never reads the
room's state, so the recording happens in every room state, the voting phase
included. -/
theorem claim_C9_changeAnswer :
    ∀ (cats : List String) (p : Player) (now : Nat) (category answer : String),
      (dispatchMessage cats p now (.changeAnswer category answer)).2.1 = none
      ∧ (dispatchMessage cats p now (.changeAnswer category answer)).2.2 =
          !(cats.contains category)
      ∧ (dispatchMessage cats p now (.changeAnswer category answer)).1.answers =
          mapSet p.answers category answer
      ∧ mapGet (dispatchMessage cats p now (.changeAnswer category answer)).1.answers
          category = some answer
      ∧ (∀ c', c' ≠ category →
          mapGet (dispatchMessage cats p now (.changeAnswer category answer)).1.answers c'
            = mapGet p.answers c')
      ∧ (∀ cats' : List String,
          (dispatchMessage cats' p now (.changeAnswer category answer)).1 =
            (dispatchMessage cats p now (.changeAnswer category answer)).1) := by
  intro cats p now category answer
  refine ⟨rfl, rfl, rfl, mapGet_mapSet_self p.answers category answer, ?_,
    fun cats' => rfl⟩
  intro c' hc'
  exact mapGet_mapSet_ne p.answers category c' answer hc'

/-- Witness for C9: recording an answer for "Food" — a category not in the
room's list — leaves the "Animal" entry unchanged. -/
theorem claim_C9_changeAnswer_witness :
    mapGet (dispatchMessage ["Animal"] alice 5
        (.changeAnswer "Food" "pie")).1.answers "Animal" =
      mapGet alice.answers "Animal" :=
  (claim_C9_changeAnswer ["Animal"] alice 5 "Food" "pie").2.2.2.2.1 "Animal" (by decide)

/-- C10: only a heartbeat message resets the inactivity deadline — every
other inbound message kind, and any sequence of them, leaves the deadline
unchanged — and when the deadline expires the timeout callback removes the
still-member player with reason timed-out (broadcasting the removal
notice). -/
theorem claim_C10_heartbeat_only :
    (∀ (cats : List String) (p : Player) (now : Nat) (msg : FromPlayerMessage),
      msg ≠ .heartbeat →
      (dispatchMessage cats p now msg).1.inactivityDeadline = p.inactivityDeadline)
    ∧ (∀ (cats : List String) (p : Player) (now : Nat)
        (msgs : List FromPlayerMessage),
        (∀ m ∈ msgs, m ≠ .heartbeat) →
        (dispatchAll cats p now msgs).inactivityDeadline = p.inactivityDeadline)
    ∧ (∀ (cats : List String) (p : Player) (now : Nat),
        (dispatchMessage cats p now .heartbeat).1.inactivityDeadline = now + 30000)
    ∧ (∀ (room : Room) (p : Player) (r' : Room × List BMsg),
        p ∈ room.players →
        Room.inactivityTimeoutFires room p = .ok r' →
        r'.2 = [(room.playerNames, Msg.playerRemoved p.name .timedOut)]) := by
  have hsingle : ∀ (cats : List String) (p : Player) (now : Nat)
      (msg : FromPlayerMessage), msg ≠ .heartbeat →
      (dispatchMessage cats p now msg).1.inactivityDeadline = p.inactivityDeadline := by
    intro cats p now msg hmsg
    cases msg with
    | heartbeat => exact absurd rfl hmsg
    | startRound => rfl
    | stopRound => rfl
    | changeAnswer c a => rfl
    | changeAnswerVote a acc => rfl
    | leaveRoom => rfl
  refine ⟨hsingle, ?_, fun cats p now => rfl, ?_⟩
  · intro cats p now msgs h
    induction msgs generalizing p with
    | nil => rfl
    | cons m ms ih =>
      have h1 := hsingle cats p now m (h m (List.mem_cons_self m ms))
      have h2 := ih ((dispatchMessage cats p now m).1)
        (fun x hx => h x (List.mem_cons_of_mem m hx))
      simpa [dispatchAll] using h2.trans h1
  · intro room p r' hmem hok
    simp only [Room.inactivityTimeoutFires, Room.removePlayer, hmem, if_true,
      Except.ok.injEq] at hok
    subst hok
    rfl

/-- Witness for C10: alice keeps changing answers, voting and issuing round
commands without a heartbeat, and her inactivity deadline never moves. -/
theorem claim_C10_heartbeat_only_witness :
    (dispatchAll ["Animal", "Food"] alice 99
        [.changeAnswer "Animal" "ant", .changeAnswer "Animal" "ape",
         .changeAnswerVote "ant" true, .startRound, .stopRound,
         .leaveRoom]).inactivityDeadline = alice.inactivityDeadline :=
  claim_C10_heartbeat_only.2.1 ["Animal", "Food"] alice 99
    [.changeAnswer "Animal" "ant", .changeAnswer "Animal" "ape",
     .changeAnswerVote "ant" true, .startRound, .stopRound, .leaveRoom]
    (by decide)

end StopServer
